import Mathlib

/-!
Shallow embedding of the survey-filling core of the Quick-Survey repository.

The embedded code is `src/frontend/src/pages/SurveyPage.tsx` (the version using
`visibleQuestions`, i.e. the conditional-visibility evaluator, the traversal
controller and the submission assembler) and
`src/frontend/src/components/survey/StatusTimeline.tsx` together with the
`data-completed` semantics of `src/frontend/src/components/ui/timeline.tsx`.

JavaScript `Map<number, content>` values are embedded as insertion-ordered
association lists (`AnswerMap`), matching `Map.set` / `Map.get` /
`Map.entries` semantics.  JavaScript truthiness on optional strings
(`null`/`''` falsy) is embedded explicitly.
-/

namespace QuickSurvey

/-- The scalar stored in an answer's `value` field: `value?: string | boolean`
(from `AnswerSubmit['content']` in `src/frontend/src/types/survey.ts`). -/
inductive ScalarValue where
  | str (s : String)
  | bool (b : Bool)
deriving DecidableEq, Repr

/-- JavaScript `String(answerValue)` on a `string | boolean` value:
a string is unchanged, a boolean becomes `"true"` / `"false"`. -/
def scalarToString : ScalarValue → String
  | .str s => s
  | .bool true => "true"
  | .bool false => "false"

/-- `show_when` of a condition: a single scalar string or an array of strings
(condition encoding `{"depends_on": id, "show_when": scalar | array}` from the
`questions.condition` migration and the spec's external-interface section). -/
inductive ShowWhen where
  | one (s : String)
  | many (l : List String)
deriving DecidableEq, Repr

/-- A question's visibility condition.  The TypeScript interface declaration is
not among the source files; the shape is the one `isQuestionVisible` reads
(`condition.depends_on`, `condition.show_when`) and the persisted JSON encoding
documents. -/
structure Condition where
  depends_on : Nat
  show_when : ShowWhen
deriving DecidableEq, Repr

/-- `QuestionType` from `src/frontend/src/types/survey.ts`. -/
inductive QuestionType where
  | single
  | multiple
  | boolean
  | text
  | image
deriving DecidableEq, Repr

/-- `Question` from `src/frontend/src/types/survey.ts`, restricted to the
fields the embedded functions read, plus the optional `condition` used by
`isQuestionVisible`. -/
structure Question where
  id : Nat
  title : String
  type : QuestionType
  is_required : Bool
  condition : Option Condition
deriving DecidableEq, Repr

/-- `PublicSurvey` from `src/frontend/src/types/survey.ts`, restricted to the
fields the embedded functions read. -/
structure PublicSurvey where
  questions : List Question
deriving DecidableEq, Repr

/-- `AnswerSubmit['content']`: at most one of the per-type fields is
populated, but nothing in the client enforces that, so all four optional
fields are embedded. -/
structure AnswerContent where
  value : Option ScalarValue
  values : Option (List String)
  text : Option String
  images : Option (List String)
deriving DecidableEq, Repr

/-- The client's `Map<number, AnswerSubmit['content']>` answer cache, as an
insertion-ordered association list (JavaScript `Map` iteration order). -/
def AnswerMap : Type := List (Nat × AnswerContent)

instance : DecidableEq AnswerMap := by
  unfold AnswerMap
  infer_instance

/-- JavaScript `Map.get`: the value stored at the key, if any. -/
def mapGet : AnswerMap → Nat → Option AnswerContent
  | [], _ => none
  | (k', v) :: rest, k => if k' = k then some v else mapGet rest k

/-- JavaScript `Map.set`: update in place when the key exists (keeping its
insertion position), otherwise append a new entry. -/
def mapSet : AnswerMap → Nat → AnswerContent → AnswerMap
  | [], k, v => [(k, v)]
  | (k', v') :: rest, k, v =>
      if k' = k then (k', v) :: rest else (k', v') :: mapSet rest k v

/-- JavaScript `String.prototype.trim`: strip whitespace from both ends.
Stated over the character list (Lean's own `String.trim` is equivalent but
does not reduce in the kernel, so concrete witnesses could not evaluate
through it). -/
def jsTrim (s : String) : String :=
  ⟨((s.data.dropWhile Char.isWhitespace).reverse.dropWhile
      Char.isWhitespace).reverse⟩

/-- JavaScript truthiness of an optional string: `null`/`undefined` and the
empty string are falsy. -/
def optStrTruthy : Option String → Bool
  | some s => s ≠ ""
  | none => false

/-- `isQuestionVisible` from `SurveyPage.tsx` (lines 428-448): a question with
no condition is always visible; otherwise the dependency's cached answer is
looked up, its `value` field is stringified and compared against `show_when`
(array membership for an array, strict string equality otherwise).  A missing
dependency answer or a missing `value` field yields not-visible. -/
def isQuestionVisible (question : Question) (currentAnswers : AnswerMap) : Bool :=
  match question.condition with
  | none => true
  | some cond =>
    match mapGet currentAnswers cond.depends_on with
    | none => false
    | some dependAnswer =>
      match dependAnswer.value with
      | none => false
      | some answerValue =>
        let currentValue := scalarToString answerValue
        match cond.show_when with
        | .many showWhen => showWhen.contains currentValue
        | .one showWhen => currentValue == showWhen

/-- `visibleQuestions` from `SurveyPage.tsx` (lines 451-454): the ordered
subsequence of the survey's questions that are currently visible. -/
def visibleQuestions (survey : PublicSurvey) (answers : AnswerMap) : List Question :=
  survey.questions.filter (fun question => isQuestionVisible question answers)

/-- `handleAnswerChange` from `SurveyPage.tsx` (lines 484-490): the only state
it touches is the answer map, where it sets the entry for the question. -/
def handleAnswerChange (answers : AnswerMap) (questionId : Nat)
    (content : AnswerContent) : AnswerMap :=
  mapSet answers questionId content

/-- `isQuestionAnswered` from `SurveyPage.tsx` (lines 524-541): per-type
non-emptiness check on the cached answer. -/
def isQuestionAnswered (answers : AnswerMap) (question : Question) : Bool :=
  match mapGet answers question.id with
  | none => false
  | some answer =>
    match question.type with
    | .single | .boolean =>
      match answer.value with
      | none => false
      | some (.str s) => s ≠ ""
      | some (.bool _) => true
    | .multiple =>
      match answer.values with
      | some vs => vs.length > 0
      | none => false
    | .text =>
      match answer.text with
      | some t => jsTrim t ≠ ""
      | none => false
    | .image =>
      match answer.images with
      | some imgs => imgs.length > 0
      | none => false

/-- The questions the last-step validation in `handleNext` complains about:
`visibleQuestions.filter((q) => q.is_required && !isQuestionAnswered(q))`
(lines 503-505). -/
def unansweredRequired (survey : PublicSurvey) (answers : AnswerMap) : List Question :=
  (visibleQuestions survey answers).filter
    (fun q => q.is_required && !(isQuestionAnswered answers q))

/-- The first guard of `handleNext` (line 496):
`currentQuestion?.is_required && !isQuestionAnswered(currentQuestion)`, with
`currentQuestion = visibleQuestions[currentIndex]` possibly undefined. -/
def currentRequiredBlocked (survey : PublicSurvey) (answers : AnswerMap)
    (currentIndex : Nat) : Bool :=
  match (visibleQuestions survey answers)[currentIndex]? with
  | some q => q.is_required && !(isQuestionAnswered answers q)
  | none => false

/-- The toast text of the first `handleNext` guard (line 497). -/
def requiredToast : String := "请先完成当前问题"

/-- The toast text of the last-step validation (line 507); its only dynamic
datum is the number of unanswered required visible questions. -/
def unansweredToast (n : Nat) : String :=
  "还有 " ++ toString n ++ " 道必填题未完成"

/-- The observable effect of one `handleNext` call: the resulting position
index, whether `setShowConfirm(true)` was invoked, and the `toast.error`
message reported, if any. -/
structure NextOutcome where
  currentIndex : Nat
  showConfirm : Bool
  toast : Option String
deriving DecidableEq, Repr

/-- `handleNext` from `SurveyPage.tsx` (lines 492-515).  An empty visible
list is a no-op; a required unanswered current question is refused; on the
last visible question the unanswered required visible questions are counted
and either refuse the step or open the finalize confirmation; otherwise the
index advances. -/
def handleNext (survey : PublicSurvey) (answers : AnswerMap)
    (currentIndex : Nat) : NextOutcome :=
  let vis := visibleQuestions survey answers
  if vis.length = 0 then ⟨currentIndex, false, none⟩
  else if currentRequiredBlocked survey answers currentIndex then
    ⟨currentIndex, false, some requiredToast⟩
  else if currentIndex == vis.length - 1 then
    let unanswered := unansweredRequired survey answers
    if unanswered.length > 0 then
      ⟨currentIndex, false, some (unansweredToast unanswered.length)⟩
    else
      ⟨currentIndex, true, none⟩
  else
    ⟨currentIndex + 1, false, none⟩

/-- `SecurityConfig` as read by `handleSubmit`: the anti-abuse (Turnstile)
enablement flag for the deployment. -/
structure SecurityConfig where
  turnstile_enabled : Bool
deriving DecidableEq, Repr

/-- `securityConfig?.turnstile_enabled` with a possibly absent config (the
config fetch is allowed to fail, leaving `securityConfig` null, which reads
as disabled). -/
def turnstileEnabled : Option SecurityConfig → Bool
  | some cfg => cfg.turnstile_enabled
  | none => false

/-- One `{question_id, content}` entry of the submission payload
(`AnswerSubmit` from `src/frontend/src/types/survey.ts`). -/
structure AnswerEntry where
  question_id : Nat
  content : AnswerContent
deriving DecidableEq, Repr

/-- The `submitData` object built by `handleSubmit` (lines 562-573).  Its only
timing field is `start_time`, the recorded start timestamp. -/
structure SubmitData where
  player_name : String
  answers : List AnswerEntry
  turnstile_token : Option String
  start_time : Int
deriving DecidableEq, Repr

/-- `handleSubmit` from `SurveyPage.tsx` (lines 543-584), up to the network
call: `none` when a guard refuses (empty trimmed player name, or Turnstile
enabled without a truthy token), otherwise the assembled payload.  Cached
answers are filtered to the ids of the currently visible questions;
`turnstile_token: turnstileToken || undefined` maps a falsy token to an
absent field; `start_time` is passed through unchanged. -/
def handleSubmit (survey : PublicSurvey) (answers : AnswerMap)
    (playerName : String) (turnstileToken : Option String)
    (securityConfig : Option SecurityConfig) (startTime : Int) :
    Option SubmitData :=
  if jsTrim playerName = "" then none
  else if turnstileEnabled securityConfig && !(optStrTruthy turnstileToken) then
    none
  else
    let visibleQuestionIds := (visibleQuestions survey answers).map (fun q => q.id)
    some ⟨jsTrim playerName,
      (answers.filter (fun p => visibleQuestionIds.contains p.1)).map
        (fun p => ⟨p.1, p.2⟩),
      (match turnstileToken with
       | some t => if t = "" then none else some t
       | none => none),
      startTime⟩

/-- Submission review status (`pending` initial, `approved`/`rejected`
terminal). -/
inductive ReviewStatus where
  | pending
  | approved
  | rejected
deriving DecidableEq, Repr

/-- The nullable timestamps `StatusTimeline` reads from
`submission.timeline`. -/
structure TimelineStamps where
  submitted_at : Option String
  first_viewed_at : Option String
  reviewed_at : Option String
deriving DecidableEq, Repr

/-- The `SubmissionStatus` record as read by `StatusTimeline.tsx`; the
TypeScript interface declaration is not among the source files, so the fields
are exactly the ones the component destructures (line 30). -/
structure SubmissionStatus where
  status : ReviewStatus
  review_note : Option String
  player_name : String
  fill_duration : Option String
  timeline : TimelineStamps
deriving DecidableEq, Repr

/-- `formatDateTime` from `StatusTimeline.tsx` (lines 18-27): a falsy ISO
string renders as the empty string, otherwise the locale formatter `fmt`
(an opaque collaborator, `Date.toLocaleString`) is applied. -/
def formatDateTime (fmt : String → String) : Option String → String
  | none => ""
  | some s => if s = "" then "" else fmt s

/-- `getActiveStep` from `StatusTimeline.tsx` (lines 33-37): 3 once decided,
2 once first viewed, 1 otherwise. -/
def getActiveStep (s : SubmissionStatus) : Nat :=
  if s.status = .approved ∨ s.status = .rejected then 3
  else if optStrTruthy s.timeline.first_viewed_at then 2
  else 1

/-- `data-completed` semantics of `TimelineItem` in `ui/timeline.tsx`
(line 163): an item with step number `step` renders completed exactly when
`step <= activeStep`. -/
def itemCompleted (s : SubmissionStatus) (step : Nat) : Bool :=
  decide (step ≤ getActiveStep s)

/-- One rendered timeline entry (id/step, title, description, date). -/
structure TimelineEntry where
  id : Nat
  title : String
  description : String
  date : String
deriving DecidableEq, Repr

/-- The `items` array built by `StatusTimeline.tsx` (lines 40-82):
the submitted and viewed entries are always present; the third entry is the
decision entry when the status is decided, and a waiting placeholder while
pending. -/
def statusTimelineItems (fmt : String → String) (s : SubmissionStatus) :
    List TimelineEntry :=
  let submittedItem : TimelineEntry :=
    ⟨1, "提交问卷",
      (match s.fill_duration with
       | some d => if d = "" then "问卷已成功提交" else "填写用时 " ++ d
       | none => "问卷已成功提交"),
      formatDateTime fmt s.timeline.submitted_at⟩
  let viewedItem : TimelineEntry :=
    ⟨2, "管理员查看",
      (if optStrTruthy s.timeline.first_viewed_at then "管理员已查看您的问卷"
       else "等待管理员查看"),
      formatDateTime fmt s.timeline.first_viewed_at⟩
  let finalItem : TimelineEntry :=
    match s.status with
    | .approved =>
        ⟨3, "审核通过", s.player_name ++ " 已记录到白名单",
          formatDateTime fmt s.timeline.reviewed_at⟩
    | .rejected =>
        ⟨3, "审核未通过",
          (match s.review_note with
           | some note => if note = "" then "管理员拒绝了您的问卷" else note
           | none => "管理员拒绝了您的问卷"),
          formatDateTime fmt s.timeline.reviewed_at⟩
    | .pending =>
        ⟨3, "等待审核", "管理员正在审核您的问卷", ""⟩
  [submittedItem, viewedItem, finalItem]

/-- The comparison described by the spec for an answered dependency: exact
string equality against a single `show_when` scalar, set membership against a
collection.  Stated separately from `isQuestionVisible` so the evaluator can
be proved to refine it. -/
def showWhenMatches (currentValue : String) : ShowWhen → Bool
  | .one s => currentValue == s
  | .many l => l.contains currentValue

/-- The spec's data-model invariant on conditions: `depends_on` refers to a
question strictly earlier in the fixed rendering order than the question
carrying the condition (no forward references, no self references). -/
def dependsEarlier (qs : List Question) : Prop :=
  ∀ (i j : Fin qs.length) (c : Condition),
    (qs.get j).condition = some c → c.depends_on = (qs.get i).id →
      (i : Nat) < (j : Nat)

/-! Concrete sample data used by witnesses and counterexamples. -/

/-- Sample: unconditioned required single-choice question. -/
def sampleQ1 : Question := ⟨1, "Q1", .single, true, none⟩

/-- Sample: required single-choice question shown only when question 1 is
answered `"a"`. -/
def sampleQ2 : Question := ⟨2, "Q2", .single, true, some ⟨1, .one "a"⟩⟩

/-- Sample: unconditioned required single-choice question with id 2. -/
def sampleQ2u : Question := ⟨2, "Q2", .single, true, none⟩

/-- Sample: unconditioned optional free-text question. -/
def sampleQ3 : Question := ⟨3, "Q3", .text, false, none⟩

/-- Sample survey with a conditional second question. -/
def sampleSurvey : PublicSurvey := ⟨[sampleQ1, sampleQ2, sampleQ3]⟩

/-- Sample survey whose first two questions are required and unconditioned. -/
def reqSurvey : PublicSurvey := ⟨[sampleQ1, sampleQ2u, sampleQ3]⟩

/-- Sample single-choice answer content with value `"a"`. -/
def contentA : AnswerContent := ⟨some (.str "a"), none, none, none⟩

/-- Sample single-choice answer content with value `"b"`. -/
def contentB : AnswerContent := ⟨some (.str "b"), none, none, none⟩

/-- Sample free-text answer content (no scalar `value` field). -/
def contentText : AnswerContent := ⟨none, none, some "hello", none⟩

/-- Sample decided submission record. -/
def sampleRejected : SubmissionStatus :=
  ⟨.rejected, some "too short", "alice", some "2m",
    ⟨some "2025-01-01T10:00:00Z", none, some "2025-01-02T09:00:00Z"⟩⟩

/-! Helper lemmas about the answer map and the evaluator. -/

theorem mapGet_mapSet_self (m : AnswerMap) (k : Nat) (v : AnswerContent) :
    mapGet (mapSet m k v) k = some v := by
  induction m with
  | nil => simp [mapSet, mapGet]
  | cons p rest ih =>
    obtain ⟨k', v'⟩ := p
    by_cases hk : k' = k
    · subst hk; simp [mapSet, mapGet]
    · simp [mapSet, mapGet, hk, ih]

theorem mapGet_mapSet_ne (m : AnswerMap) (k x : Nat) (v : AnswerContent)
    (h : x ≠ k) : mapGet (mapSet m k v) x = mapGet m x := by
  have hkx : ¬ (k = x) := fun hh => h hh.symm
  induction m with
  | nil => simp [mapSet, mapGet, hkx]
  | cons p rest ih =>
    obtain ⟨k', v'⟩ := p
    by_cases hk : k' = k
    · have hk'x : ¬ (k' = x) := hk ▸ hkx
      simp [mapSet, mapGet, hk, hkx, hk'x]
    · simp [mapSet, mapGet, hk, ih]

theorem isQuestionVisible_congr (p : Question) (a a' : AnswerMap)
    (h : ∀ c, p.condition = some c →
      mapGet a' c.depends_on = mapGet a c.depends_on) :
    isQuestionVisible p a' = isQuestionVisible p a := by
  unfold isQuestionVisible
  cases hc : p.condition with
  | none => rfl
  | some cond => simp [h cond hc]

theorem filter_getElem?_decomp {α : Type} (f : α → Bool) (l : List α) :
    ∀ (i : Nat) (q : α), (l.filter f)[i]? = some q →
      ∃ l₁ l₂, l = l₁ ++ q :: l₂ ∧ (l₁.filter f).length = i ∧ f q = true := by
  induction l with
  | nil => intro i q h; simp at h
  | cons a l ih =>
    intro i q h
    by_cases hfa : f a
    · rw [List.filter_cons_of_pos hfa] at h
      cases i with
      | zero =>
        simp at h
        exact ⟨[], l, by simp [h], by simp, by rw [← h]; exact hfa⟩
      | succ i =>
        simp at h
        obtain ⟨l₁, l₂, h1, h2, h3⟩ := ih i q h
        exact ⟨a :: l₁, l₂, by simp [h1],
          by simp [List.filter_cons_of_pos hfa, h2], h3⟩
    · rw [List.filter_cons_of_neg hfa] at h
      obtain ⟨l₁, l₂, h1, h2, h3⟩ := ih i q h
      exact ⟨a :: l₁, l₂, by simp [h1],
        by simp [List.filter_cons_of_neg hfa, h2], h3⟩

/-! Claim theorems. -/

/-- C8: for every question without a condition, `isQuestionVisible` returns
true under every possible answer map. -/
theorem no_condition_always_visible (question : Question) (answers : AnswerMap)
    (h : question.condition = none) :
    isQuestionVisible question answers = true := by
  unfold isQuestionVisible
  rw [h]

theorem no_condition_always_visible_witness :
    sampleQ1.condition = none
    ∧ isQuestionVisible sampleQ1 [(1, contentA)] = true :=
  ⟨rfl, no_condition_always_visible sampleQ1 [(1, contentA)] rfl⟩

/-- C4: for a question carrying a condition, an unanswered dependency makes
`isQuestionVisible` return false; an answered dependency with a scalar
`value` is stringified (`"true"`/`"false"` for booleans, a string as-is) and
`isQuestionVisible` returns exactly the `show_when` comparison (string
equality for a single scalar, membership for a collection). -/
theorem visible_iff_show_when_matches (question : Question) (cond : Condition)
    (answers : AnswerMap) (h : question.condition = some cond) :
    (mapGet answers cond.depends_on = none →
      isQuestionVisible question answers = false)
    ∧ (∀ dependAnswer, mapGet answers cond.depends_on = some dependAnswer →
        ∀ v, dependAnswer.value = some v →
          isQuestionVisible question answers =
            showWhenMatches (scalarToString v) cond.show_when)
    ∧ scalarToString (.bool true) = "true"
    ∧ scalarToString (.bool false) = "false"
    ∧ (∀ s, scalarToString (.str s) = s) := by
  refine ⟨?_, ?_, rfl, rfl, fun s => rfl⟩
  · intro hnone
    unfold isQuestionVisible
    simp [h, hnone]
  · intro dependAnswer hda v hv
    unfold isQuestionVisible showWhenMatches
    simp [h, hda, hv]
    cases cond.show_when <;> simp

theorem visible_iff_show_when_matches_witness :
    sampleQ2.condition = some ⟨1, .one "a"⟩
    ∧ mapGet [(1, contentA)] 1 = some contentA
    ∧ contentA.value = some (.str "a")
    ∧ isQuestionVisible sampleQ2 [(1, contentA)] =
        showWhenMatches (scalarToString (.str "a")) (.one "a") := by
  refine ⟨rfl, rfl, rfl, ?_⟩
  exact (visible_iff_show_when_matches sampleQ2 ⟨1, .one "a"⟩ [(1, contentA)]
    rfl).2.1 contentA rfl (.str "a") rfl

/-- C10: `isQuestionVisible` is total over every answer-content shape: when
the dependency's cached answer exists but its `value` field is absent (for
example multi-choice `values`, free `text`, or an `images` list), the
dependent question is not visible. -/
theorem visible_false_without_scalar_value (question : Question)
    (cond : Condition) (answers : AnswerMap) (dependAnswer : AnswerContent)
    (h : question.condition = some cond)
    (hda : mapGet answers cond.depends_on = some dependAnswer)
    (hv : dependAnswer.value = none) :
    isQuestionVisible question answers = false := by
  unfold isQuestionVisible
  simp [h, hda, hv]

theorem visible_false_without_scalar_value_witness :
    sampleQ2.condition = some ⟨1, .one "a"⟩
    ∧ mapGet [(1, contentText)] 1 = some contentText
    ∧ contentText.value = none
    ∧ isQuestionVisible sampleQ2 [(1, contentText)] = false :=
  ⟨rfl, rfl, rfl,
    visible_false_without_scalar_value sampleQ2 ⟨1, .one "a"⟩
      [(1, contentText)] contentText rfl rfl rfl⟩

/-- C9: `handleAnswerChange q c` sets the entry for `q` to `c`, leaves the
entry of every other question unchanged, and never removes an entry. -/
theorem answer_change_frame (answers : AnswerMap) (questionId : Nat)
    (content : AnswerContent) :
    mapGet (handleAnswerChange answers questionId content) questionId
        = some content
    ∧ (∀ x, x ≠ questionId →
        mapGet (handleAnswerChange answers questionId content) x
          = mapGet answers x)
    ∧ (∀ x v, mapGet answers x = some v →
        (mapGet (handleAnswerChange answers questionId content) x).isSome
          = true) := by
  refine ⟨mapGet_mapSet_self answers questionId content,
    fun x hx => mapGet_mapSet_ne answers questionId x content hx, ?_⟩
  intro x v hv
  by_cases hx : x = questionId
  · subst hx
    rw [handleAnswerChange, mapGet_mapSet_self]
    rfl
  · rw [handleAnswerChange, mapGet_mapSet_ne answers questionId x content hx, hv]
    rfl

theorem answer_change_frame_witness :
    mapGet (handleAnswerChange [(1, contentA), (2, contentB)] 1 contentB) 1
        = some contentB
    ∧ mapGet (handleAnswerChange [(1, contentA), (2, contentB)] 1 contentB) 2
        = some contentB
    ∧ (2 : Nat) ≠ 1 := by
  refine ⟨(answer_change_frame [(1, contentA), (2, contentB)] 1 contentB).1,
    ?_, by decide⟩
  rw [(answer_change_frame [(1, contentA), (2, contentB)] 1 contentB).2.1 2
    (by decide)]
  rfl

/-- C5: when the current question (the entry of the visible subsequence at
the current index) is required and not answered under the per-type check,
`handleNext` reports the fixed validation toast, keeps the index unchanged,
and does not open the finalize confirmation. -/
theorem next_refused_when_current_required_unanswered (survey : PublicSurvey)
    (answers : AnswerMap) (currentIndex : Nat) (q : Question)
    (hq : (visibleQuestions survey answers)[currentIndex]? = some q)
    (hreq : q.is_required = true)
    (hans : isQuestionAnswered answers q = false) :
    handleNext survey answers currentIndex =
      ⟨currentIndex, false, some requiredToast⟩ := by
  have hlen : currentIndex < (visibleQuestions survey answers).length := by
    by_contra hge
    rw [List.getElem?_eq_none (Nat.le_of_not_lt hge)] at hq
    exact Option.noConfusion hq
  have hblock : currentRequiredBlocked survey answers currentIndex = true := by
    unfold currentRequiredBlocked
    rw [hq]
    simp [hreq, hans]
  have hne : ¬ ((visibleQuestions survey answers).length = 0) := by omega
  unfold handleNext
  simp [hne, hblock]

theorem next_refused_when_current_required_unanswered_witness :
    (visibleQuestions sampleSurvey [])[0]? = some sampleQ1
    ∧ sampleQ1.is_required = true
    ∧ isQuestionAnswered [] sampleQ1 = false
    ∧ handleNext sampleSurvey [] 0 = ⟨0, false, some requiredToast⟩ :=
  ⟨by decide, rfl, rfl,
    next_refused_when_current_required_unanswered sampleSurvey [] 0 sampleQ1
      (by decide) rfl rfl⟩

/-- C3, counterexample: the last-step validation error does not name the
offending questions.  Two finalize states over the same survey (required
questions 1 and 2, optional last question) with different offending-question
sets — only question 1 unanswered versus only question 2 unanswered — produce
identical `handleNext` outcomes, because the toast carries only the count
`unanswered.length`; an error that named every offending question would have
to differ between the two states. -/
theorem finalize_error_not_naming_offenders :
    handleNext reqSurvey [(2, contentA)] 2 = handleNext reqSurvey [(1, contentA)] 2
    ∧ unansweredRequired reqSurvey [(2, contentA)]
        ≠ unansweredRequired reqSurvey [(1, contentA)]
    ∧ (handleNext reqSurvey [(2, contentA)] 2).toast.isSome = true
    ∧ (handleNext reqSurvey [(2, contentA)] 2).showConfirm = false := by
  decide

/-- C3, amended: at finalize time (a `handleNext` call on the last index of
the visible subsequence), whenever at least one required visible question is
unanswered, the step fails with a validation toast — reporting the *number*
of offending questions when the current-question guard does not fire first —
the index is unchanged, and the finalize confirmation (the only path to a
submission payload) is not opened. -/
theorem finalize_blocks_on_unanswered_required (survey : PublicSurvey)
    (answers : AnswerMap) (currentIndex : Nat)
    (hne : visibleQuestions survey answers ≠ [])
    (hlast : currentIndex = (visibleQuestions survey answers).length - 1)
    (hoff : unansweredRequired survey answers ≠ []) :
    (handleNext survey answers currentIndex).showConfirm = false
    ∧ (handleNext survey answers currentIndex).currentIndex = currentIndex
    ∧ (handleNext survey answers currentIndex).toast.isSome = true
    ∧ (currentRequiredBlocked survey answers currentIndex = false →
        (handleNext survey answers currentIndex).toast =
          some (unansweredToast (unansweredRequired survey answers).length)) := by
  have h0 : ¬ ((visibleQuestions survey answers).length = 0) := by
    simpa [List.length_eq_zero] using hne
  have hcnt : 0 < (unansweredRequired survey answers).length := by
    cases hul : unansweredRequired survey answers with
    | nil => exact absurd hul hoff
    | cons a l => simp
  subst hlast
  by_cases hb : currentRequiredBlocked survey answers
      ((visibleQuestions survey answers).length - 1)
  · unfold handleNext
    simp [h0, hb]
  · unfold handleNext
    simp [h0, hb, hcnt]

theorem finalize_blocks_on_unanswered_required_witness :
    visibleQuestions reqSurvey [(1, contentA)] ≠ []
    ∧ (2 : Nat) = (visibleQuestions reqSurvey [(1, contentA)]).length - 1
    ∧ unansweredRequired reqSurvey [(1, contentA)] ≠ []
    ∧ (handleNext reqSurvey [(1, contentA)] 2).showConfirm = false
    ∧ (handleNext reqSurvey [(1, contentA)] 2).toast =
        some (unansweredToast 1) := by
  have h := finalize_blocks_on_unanswered_required reqSurvey [(1, contentA)] 2
    (by decide) (by decide) (by decide)
  exact ⟨by decide, by decide, by decide, h.1, by
    have := h.2.2.2 (by decide)
    simpa using this⟩

/-- C6, counterexample: the payload's only timing attachment is the raw
recorded start timestamp, not an elapsed time.  With start timestamp 100 and
finalize timestamp 160 the claimed attachment would be the elapsed 60
seconds, but the assembled payload carries `start_time = 100`. -/
theorem payload_timing_is_start_not_elapsed :
    (handleSubmit reqSurvey [(1, contentA)] "p" (some "tok")
        (some ⟨true⟩) 100).map SubmitData.start_time = some 100
    ∧ ((100 : Int) = 160 - 100 → False) := by
  constructor
  · rfl
  · decide

/-- C6, amended: the payload assembled by `handleSubmit` attaches the
recorded start timestamp unchanged (elapsed time is derived server-side from
it), and, when anti-abuse (Turnstile) is enabled for the deployment, a
non-empty bot-verification token — without a truthy token the submit is
refused and no payload exists at all. -/
theorem payload_start_time_and_token (survey : PublicSurvey)
    (answers : AnswerMap) (playerName : String)
    (turnstileToken : Option String) (securityConfig : Option SecurityConfig)
    (startTime : Int) (p : SubmitData)
    (h : handleSubmit survey answers playerName turnstileToken securityConfig
          startTime = some p) :
    p.start_time = startTime
    ∧ (turnstileEnabled securityConfig = true →
        ∃ t, p.turnstile_token = some t ∧ t ≠ "") := by
  unfold handleSubmit at h
  by_cases h1 : jsTrim playerName = ""
  · simp [h1] at h
  · by_cases h2 : turnstileEnabled securityConfig
        && !(optStrTruthy turnstileToken)
    · simp [h1, h2] at h
    · rw [if_neg h1, if_neg (by simp [h2])] at h
      have hp := Option.some.inj h
      subst hp
      refine ⟨rfl, fun hen => ?_⟩
      have htok : optStrTruthy turnstileToken = true := by
        cases htt : optStrTruthy turnstileToken with
        | true => rfl
        | false => exact absurd (by rw [hen, htt]; rfl) h2
      cases turnstileToken with
      | none => exact absurd htok (by simp [optStrTruthy])
      | some t =>
        have htne : ¬ (t = "") := by
          intro hte
          rw [hte] at htok
          exact absurd htok (by simp [optStrTruthy])
        exact ⟨t, by simp [htne], htne⟩

theorem payload_start_time_and_token_witness :
    handleSubmit reqSurvey [(1, contentA)] "p" (some "tok") (some ⟨true⟩) 100
      = some ⟨"p", [⟨1, contentA⟩], some "tok", 100⟩
    ∧ (⟨"p", [⟨1, contentA⟩], some "tok", 100⟩ : SubmitData).start_time = 100
    ∧ turnstileEnabled (some ⟨true⟩) = true
    ∧ ∃ t, (⟨"p", [⟨1, contentA⟩], some "tok", 100⟩
        : SubmitData).turnstile_token = some t ∧ t ≠ "" := by
  have h := payload_start_time_and_token reqSurvey [(1, contentA)] "p"
    (some "tok") (some ⟨true⟩) 100 ⟨"p", [⟨1, contentA⟩], some "tok", 100⟩
    (by decide)
  exact ⟨by decide, h.1, rfl, h.2 rfl⟩

/-- C1: every entry of the payload assembled by `handleSubmit` has the id of
a question in the visible subsequence computed from the same answer map at
that moment; cached answers for now-hidden (or unknown) questions are
filtered out, whatever mutation history produced the cache. -/
theorem payload_answers_subset_visible (survey : PublicSurvey)
    (answers : AnswerMap) (playerName : String)
    (turnstileToken : Option String) (securityConfig : Option SecurityConfig)
    (startTime : Int) (p : SubmitData)
    (h : handleSubmit survey answers playerName turnstileToken securityConfig
          startTime = some p)
    (e : AnswerEntry) (he : e ∈ p.answers) :
    ∃ q ∈ visibleQuestions survey answers, q.id = e.question_id := by
  unfold handleSubmit at h
  by_cases h1 : jsTrim playerName = ""
  · simp [h1] at h
  · by_cases h2 : turnstileEnabled securityConfig
        && !(optStrTruthy turnstileToken)
    · simp [h1, h2] at h
    · rw [if_neg h1, if_neg (by simp [h2])] at h
      have hp := Option.some.inj h
      subst hp
      simp only at he
      obtain ⟨pair, hpair, hpe⟩ := List.mem_map.mp he
      obtain ⟨hmem, hcont⟩ := List.mem_filter.mp hpair
      have hidmem : pair.1 ∈ (visibleQuestions survey answers).map
          (fun q => q.id) := by
        simpa using hcont
      obtain ⟨q, hq, hid⟩ := List.mem_map.mp hidmem
      refine ⟨q, hq, ?_⟩
      rw [hid, ← hpe]

theorem payload_answers_subset_visible_witness :
    handleSubmit sampleSurvey [(1, contentB), (2, contentA), (7, contentText)]
        "p" none none 100
      = some ⟨"p", [⟨1, contentB⟩], none, 100⟩
    ∧ (⟨1, contentB⟩ : AnswerEntry) ∈
        (⟨"p", [⟨1, contentB⟩], none, 100⟩ : SubmitData).answers
    ∧ ∃ q ∈ visibleQuestions sampleSurvey
        [(1, contentB), (2, contentA), (7, contentText)],
        q.id = (⟨1, contentB⟩ : AnswerEntry).question_id := by
  refine ⟨by decide, by decide, ?_⟩
  exact payload_answers_subset_visible sampleSurvey
    [(1, contentB), (2, contentA), (7, contentText)] "p" none none 100
    ⟨"p", [⟨1, contentB⟩], none, 100⟩ (by decide) ⟨1, contentB⟩ (by decide)

/-- C7: the rendered timeline is an ordered sequence of (at most) three
steps: a submitted step always present dated with `submitted_at`; a viewed
step completed exactly when `first_viewed_at` is set or the submission is
already decided (so a decided submission renders it implicitly complete even
with `first_viewed_at` null, and a pending never-viewed submission shows it
pending); and a decision step carrying the outcome, the `reviewed_at`
timestamp and — for a rejection — the review note, present only once the
status is not pending (while pending the third slot is an uncompleted
waiting placeholder). -/
theorem status_timeline_steps (fmt : String → String) (s : SubmissionStatus) :
    (statusTimelineItems fmt s).length = 3
    ∧ ((statusTimelineItems fmt s)[0]?).map TimelineEntry.date
        = some (formatDateTime fmt s.timeline.submitted_at)
    ∧ (itemCompleted s 2 = true ↔
        (optStrTruthy s.timeline.first_viewed_at = true ∨ s.status ≠ .pending))
    ∧ (s.status = .pending →
        (statusTimelineItems fmt s)[2]? =
          some ⟨3, "等待审核", "管理员正在审核您的问卷", ""⟩
        ∧ itemCompleted s 3 = false)
    ∧ (s.status = .approved →
        (statusTimelineItems fmt s)[2]? =
          some ⟨3, "审核通过", s.player_name ++ " 已记录到白名单",
            formatDateTime fmt s.timeline.reviewed_at⟩
        ∧ itemCompleted s 3 = true)
    ∧ (∀ note, s.status = .rejected → s.review_note = some note → note ≠ "" →
        (statusTimelineItems fmt s)[2]? =
          some ⟨3, "审核未通过", note, formatDateTime fmt s.timeline.reviewed_at⟩
        ∧ itemCompleted s 3 = true) := by
  obtain ⟨st, note, pn, fd, tl⟩ := s
  refine ⟨rfl, rfl, ?_, ?_, ?_, ?_⟩
  · cases st <;>
      by_cases hv : optStrTruthy tl.first_viewed_at <;>
        simp [itemCompleted, getActiveStep, hv]
  · intro hst
    subst hst
    refine ⟨rfl, ?_⟩
    by_cases hv : optStrTruthy tl.first_viewed_at <;>
      simp [itemCompleted, getActiveStep, hv]
  · intro hst
    subst hst
    exact ⟨rfl, by simp [itemCompleted, getActiveStep]⟩
  · intro n hst hnote hne
    subst hst
    subst hnote
    refine ⟨?_, by simp [itemCompleted, getActiveStep]⟩
    simp [statusTimelineItems, hne]

theorem status_timeline_steps_witness :
    sampleRejected.status = .rejected
    ∧ sampleRejected.review_note = some "too short"
    ∧ ("too short" : String) ≠ ""
    ∧ (statusTimelineItems id sampleRejected).length = 3
    ∧ (itemCompleted sampleRejected 2 = true ↔
        (optStrTruthy sampleRejected.timeline.first_viewed_at = true
          ∨ sampleRejected.status ≠ .pending))
    ∧ (statusTimelineItems id sampleRejected)[2]? =
        some ⟨3, "审核未通过", "too short",
          formatDateTime id sampleRejected.timeline.reviewed_at⟩ := by
  have h := status_timeline_steps id sampleRejected
  exact ⟨rfl, rfl, by decide, h.1, h.2.2.1,
    (h.2.2.2.2.2 "too short" rfl rfl (by decide)).1⟩

/-- C2: traversal-position invariant under an answer change.  The only answer
change the page can issue targets the current question
(`handleAnswerChange(currentQuestion.id, content)`), and under the spec's
data-model invariant on conditions (`depends_on` refers strictly earlier in
the rendering order — `dependsEarlier`) such a change can only toggle the
visibility of strictly later questions.  Hence if the current index pointed
at question `q` of the visible subsequence before the change, it still
points at `q` in the recomputed subsequence (the position "stays"), it
remains in range, and no cached answer is discarded: the changed entry is
set and every other entry is untouched. -/
theorem answer_change_preserves_position (survey : PublicSurvey)
    (answers : AnswerMap) (currentIndex : Nat) (q : Question)
    (content : AnswerContent)
    (hwf : dependsEarlier survey.questions)
    (hcur : (visibleQuestions survey answers)[currentIndex]? = some q) :
    (visibleQuestions survey
        (handleAnswerChange answers q.id content))[currentIndex]? = some q
    ∧ currentIndex <
        (visibleQuestions survey (handleAnswerChange answers q.id content)).length
    ∧ mapGet (handleAnswerChange answers q.id content) q.id = some content
    ∧ ∀ x, x ≠ q.id →
        mapGet (handleAnswerChange answers q.id content) x
          = mapGet answers x := by
  obtain ⟨l₁, l₂, hsplit, hlen, hfq⟩ :=
    filter_getElem?_decomp (fun p => isQuestionVisible p answers)
      survey.questions currentIndex q hcur
  have hm : l₁.length < survey.questions.length := by
    rw [hsplit]
    simp
  have hget_m : survey.questions.get ⟨l₁.length, hm⟩ = q := by
    rw [List.get_eq_getElem]
    have h1 : survey.questions[l₁.length]? = some q := by
      rw [hsplit, List.getElem?_append_right (Nat.le_refl _)]
      simp
    have h2 := List.getElem?_eq_getElem hm
    rw [h1] at h2
    exact (Option.some.inj h2).symm
  have hq_dep : ∀ c, q.condition = some c → c.depends_on ≠ q.id := by
    intro c hc heq
    have hlt := hwf ⟨l₁.length, hm⟩ ⟨l₁.length, hm⟩ c
      (by rw [hget_m]; exact hc) (by rw [hget_m]; exact heq)
    exact absurd hlt (lt_irrefl _)
  have hagree : ∀ p ∈ l₁,
      isQuestionVisible p (handleAnswerChange answers q.id content)
        = isQuestionVisible p answers := by
    intro p hp
    obtain ⟨j, hj, hpj⟩ := List.getElem_of_mem hp
    have hj' : j < survey.questions.length := by
      rw [hsplit]
      simp
      omega
    have hqsj : survey.questions.get ⟨j, hj'⟩ = p := by
      rw [List.get_eq_getElem]
      have h1 : survey.questions[j]? = some p := by
        rw [hsplit, List.getElem?_append, if_pos hj,
          List.getElem?_eq_getElem hj, hpj]
      have h2 := List.getElem?_eq_getElem hj'
      rw [h1] at h2
      exact (Option.some.inj h2).symm
    apply isQuestionVisible_congr
    intro c hc
    apply mapGet_mapSet_ne
    intro heq
    have hlt := hwf ⟨l₁.length, hm⟩ ⟨j, hj'⟩ c
      (by rw [hqsj]; exact hc) (by rw [hget_m]; exact heq)
    simp at hlt
    omega
  have hfq' : isQuestionVisible q (handleAnswerChange answers q.id content)
      = true := by
    unfold handleAnswerChange
    rw [isQuestionVisible_congr q answers _ (fun c hc =>
      mapGet_mapSet_ne answers q.id c.depends_on content (hq_dep c hc))]
    exact hfq
  have hsplit' : visibleQuestions survey (handleAnswerChange answers q.id content)
      = (l₁.filter (fun p => isQuestionVisible p answers))
        ++ q :: (l₂.filter (fun p =>
            isQuestionVisible p (handleAnswerChange answers q.id content))) := by
    unfold visibleQuestions
    rw [hsplit, List.filter_append]
    have h2 : List.filter (fun question => isQuestionVisible question
        (handleAnswerChange answers q.id content)) (q :: l₂)
        = q :: List.filter (fun question => isQuestionVisible question
            (handleAnswerChange answers q.id content)) l₂ :=
      List.filter_cons_of_pos hfq'
    rw [h2, List.filter_congr hagree]
  refine ⟨?_, ?_, ?_, ?_⟩
  · rw [hsplit', ← hlen, List.getElem?_append_right (Nat.le_refl _)]
    simp
  · rw [hsplit', ← hlen]
    simp
  · exact mapGet_mapSet_self answers q.id content
  · exact fun x hx => mapGet_mapSet_ne answers q.id x content hx

theorem answer_change_preserves_position_witness :
    dependsEarlier sampleSurvey.questions
    ∧ (visibleQuestions sampleSurvey [(1, contentA), (2, contentB)])[1]?
        = some sampleQ2
    ∧ (visibleQuestions sampleSurvey
        (handleAnswerChange [(1, contentA), (2, contentB)] sampleQ2.id
          contentA))[1]? = some sampleQ2
    ∧ mapGet (handleAnswerChange [(1, contentA), (2, contentB)] sampleQ2.id
        contentA) sampleQ2.id = some contentA := by
  have hwf : dependsEarlier sampleSurvey.questions := by
    intro i j c hc hd
    fin_cases j
    · exact absurd hc (by simp [sampleSurvey, sampleQ1])
    · have hc2 : c = ⟨1, .one "a"⟩ := by
        have hs : some (⟨1, ShowWhen.one "a"⟩ : Condition) = some c := hc
        exact (Option.some.inj hs).symm
      subst hc2
      fin_cases i
      · decide
      · exact absurd hd (by decide)
      · exact absurd hd (by decide)
    · exact absurd hc (by simp [sampleSurvey, sampleQ3])
  have h := answer_change_preserves_position sampleSurvey
    [(1, contentA), (2, contentB)] 1 sampleQ2 contentA hwf (by decide)
  exact ⟨hwf, by decide, h.1, h.2.2.1⟩

end QuickSurvey
